import Mathlib

/-!
Shallow embedding of src/etl_sales_pipeline.py (the core transformation
pipeline) and proofs of the specification claims about it.

Modelling conventions:
* A pandas cell value is a `Cell`: a missing value (NaN/NaT/NA), a string,
  or a number (numbers are modelled as rationals; the spec's claims are
  about exact arithmetic identities, stated here over ℚ).
* The external parsers are parameters: `parser.parse(str(x)).date()` from
  dateutil (wrapped by parse_date_safe, line 20-25) is a function
  `Cell → Option Date` (`none` = the try/except returned NaT), and
  `pd.to_numeric(_, errors="coerce")` (line 82) is a function
  `Cell → Option ℚ` (`none` = coerced to NaN).  All theorems quantify over
  these parameters, so they hold for every actual parser behaviour.
* A pandas DataFrame at the column-name level (for standardize_columns,
  lines 49-65, which manipulates df.columns) is a `PyDataFrame`; the typed
  stages after schema validation work on `Row` records with the 12 required
  columns plus the source_file tag.
* Column-wise pandas statements (apply/dropna/filter/assign) are list
  operations applied stage by stage in source order.
-/

/-- A pandas cell value: missing (NaN/NaT/NA), a string, or a number. -/
inductive Cell where
  | null : Cell
  | strv : String → Cell
  | numv : ℚ → Cell
deriving DecidableEq, Repr

/-- A calendar date as produced by parser.parse(...).date(): year, month
(1-12 for genuine dates), day.  Only year and month are consumed by the
pipeline (lines 104-107). -/
structure Date where
  year : ℤ
  month : ℕ
  day : ℕ
deriving DecidableEq, Repr

/-- Python str.strip for ASCII text: remove leading and trailing
whitespace. -/
def py_strip (s : String) : String :=
  String.mk (((s.toList.dropWhile Char.isWhitespace).reverse.dropWhile
    Char.isWhitespace).reverse)

/-- Python str.lower for ASCII text. -/
def py_lower (s : String) : String :=
  String.mk (s.toList.map Char.toLower)

/-- Python str.title (as used by pandas .str.title(), line 91): an
alphabetic character is uppercased when the previous character is not
alphabetic and lowercased otherwise. -/
def py_title_go : List Char → Bool → List Char
  | [], _ => []
  | c :: cs, prevAlpha =>
    if c.isAlpha then
      (if prevAlpha then c.toLower else c.toUpper) :: py_title_go cs true
    else
      c :: py_title_go cs false

/-- Python str.title on a string. -/
def py_title (s : String) : String :=
  String.mk (py_title_go s.toList false)

/-- Python str(x) on a cell, as performed by astype(str) (line 91): pandas
stringifies a missing value as the literal text nan. -/
def Cell.pyStr : Cell → String
  | Cell.null => "nan"
  | Cell.strv s => s
  | Cell.numv q => toString q

/-- The fixed required-column list of standardize_columns
(lines 54-58). -/
def required_cols : List String :=
  ["order_id", "order_date", "region", "country",
   "customer_id", "product_id", "category", "sub_category",
   "quantity", "unit_price", "discount", "profit"]

/-- A DataFrame at the granularity standardize_columns observes: its
column names and its rows (each row a list of cells, positionally aligned
with the columns). -/
structure PyDataFrame where
  columns : List String
  rows : List (List Cell)
deriving DecidableEq, Repr

/-- The payload of the ValueError raised on line 62-63: the list of
missing required columns and the columns actually present. -/
structure SchemaErr where
  missing : List String
  present : List String
deriving DecidableEq, Repr

/-- Column-name normalization of line 52: c.strip().lower(). -/
def normalize_col (c : String) : String :=
  py_lower (py_strip c)

/-- standardize_columns (lines 49-65).  Line 52 assigns df.columns in
place, mutating the caller's DataFrame object; the function then either
raises (line 62) or returns that same object (line 65).  The pair returned
here is (the Python result: raised error or returned DataFrame, the state
of the caller's DataFrame object after the call). -/
def standardize_columns (df : PyDataFrame) :
    Except SchemaErr PyDataFrame × PyDataFrame :=
  let df' : PyDataFrame := { df with columns := df.columns.map normalize_col }
  let missing := required_cols.filter (fun c => decide (c ∉ df'.columns))
  if missing.isEmpty then (Except.ok df', df') else
    (Except.error ⟨missing, df'.columns⟩, df')

/-- A schema-validated row: the 12 required columns (raw cell values) plus
the source_file tag added by the loader (line 41). -/
structure Row where
  order_id : Cell
  order_date : Cell
  region : Cell
  country : Cell
  customer_id : Cell
  product_id : Cell
  category : Cell
  sub_category : Cell
  quantity : Cell
  unit_price : Cell
  discount : Cell
  profit : Cell
  source_file : String
deriving DecidableEq, Repr

/-- A row after date parsing succeeded (survived lines 76-77). -/
structure DatedRow where
  row : Row
  date : Date
deriving DecidableEq, Repr

/-- A row after numeric coercion of quantity, unit_price, discount, profit
succeeded (survived lines 80-84). -/
structure NumRow where
  row : Row
  date : Date
  quantity : ℚ
  unit_price : ℚ
  discount : ℚ
  profit : ℚ
deriving DecidableEq, Repr

/-- A final output row: exactly the columns of the projection list
cols_order (lines 113-121), in their final types. -/
structure OutRow where
  order_id : Cell
  order_date : Date
  order_year : ℤ
  order_quarter : String
  order_month : ℕ
  order_month_name : String
  region : String
  country : String
  customer_id : Cell
  product_id : Cell
  category : String
  sub_category : String
  quantity : ℚ
  unit_price : ℚ
  discount : ℚ
  gross_sales : ℚ
  discount_amount : ℚ
  net_sales : ℚ
  profit : ℚ
  margin_pct : Option ℚ
  source_file : String
deriving DecidableEq, Repr

/-- Lines 76-77: df order_date = df order_date apply parse_date_safe,
then dropna on order_date.  Applying the parser and discarding the rows
where it returned NaT. -/
def parse_dates (pd : Cell → Option Date) (rows : List Row) : List DatedRow :=
  rows.filterMap (fun r => (pd r.order_date).map (fun d => DatedRow.mk r d))

/-- Lines 80-84: pd.to_numeric with errors coerce on quantity, unit_price,
discount, profit, then dropna on those four columns.  Coercing each of the
four and discarding the rows where any coercion produced NaN. -/
def coerce_cells (tn : Cell → Option ℚ) (r : DatedRow) : Option NumRow :=
  (tn r.row.quantity).bind fun q =>
  (tn r.row.unit_price).bind fun up =>
  (tn r.row.discount).bind fun di =>
  (tn r.row.profit).bind fun pr =>
  some (NumRow.mk r.row r.date q up di pr)

/-- Lines 80-84 applied to every row. -/
def coerce_numerics (tn : Cell → Option ℚ) (rows : List DatedRow) :
    List NumRow :=
  rows.filterMap (coerce_cells tn)

/-- Line 87: keep only rows with quantity > 0 and unit_price >= 0. -/
def range_filter (rows : List NumRow) : List NumRow :=
  rows.filter (fun r => decide (0 < r.quantity) && decide (0 ≤ r.unit_price))

/-- The English three-letter month abbreviation produced by
strftime with the b format code (line 106) in the C locale. -/
def month_abbrev : ℕ → String
  | 1 => "Jan" | 2 => "Feb" | 3 => "Mar" | 4 => "Apr"
  | 5 => "May" | 6 => "Jun" | 7 => "Jul" | 8 => "Aug"
  | 9 => "Sep" | 10 => "Oct" | 11 => "Nov" | 12 => "Dec"
  | _ => ""

/-- Lines 89-107 and 113-125 fused into one per-row construction (none of
these source lines drops or reorders rows):
line 90-91 categorical normalization astype(str).str.strip().str.title();
lines 94-96 gross_sales, discount_amount, net_sales;
lines 99-101 margin_pct = profit / net_sales with net_sales 0 replaced by
NA first, so a zero denominator yields NA instead of a division;
lines 104-107 order_year, order_month, order_month_name, order_quarter;
lines 113-125 projection onto the fixed output column list. -/
def enrich_row (r : NumRow) : OutRow :=
  let gross := r.quantity * r.unit_price
  let damt := gross * r.discount
  let net := gross - damt
  { order_id := r.row.order_id
    order_date := r.date
    order_year := r.date.year
    order_quarter := "Q" ++ toString ((r.date.month - 1) / 3 + 1)
    order_month := r.date.month
    order_month_name := month_abbrev r.date.month
    region := py_title (py_strip r.row.region.pyStr)
    country := py_title (py_strip r.row.country.pyStr)
    customer_id := r.row.customer_id
    product_id := r.row.product_id
    category := py_title (py_strip r.row.category.pyStr)
    sub_category := py_title (py_strip r.row.sub_category.pyStr)
    quantity := r.quantity
    unit_price := r.unit_price
    discount := r.discount
    gross_sales := gross
    discount_amount := damt
    net_sales := net
    profit := r.profit
    margin_pct := if net = 0 then none else some (r.profit / net)
    source_file := r.row.source_file }

/-- Lines 89-107 and 113-125 applied to every row. -/
def enrich (rows : List NumRow) : List OutRow :=
  rows.map enrich_row

/-- The deduplication key of line 110: the (order_id, product_id) pair of
raw cell values.  pandas drop_duplicates treats NaN keys as equal, as does
equality on Cell (null = null). -/
def dedup_key (r : OutRow) : Cell × Cell :=
  (r.order_id, r.product_id)

/-- Line 110: df.drop_duplicates(subset=[order_id, product_id]).  pandas
keeps the first occurrence of each key in current row order; seen
accumulates the keys already emitted. -/
def drop_duplicates_aux (seen : List (Cell × Cell)) :
    List OutRow → List OutRow
  | [] => []
  | r :: rs =>
    if dedup_key r ∈ seen then drop_duplicates_aux seen rs
    else r :: drop_duplicates_aux (dedup_key r :: seen) rs

/-- Line 110, starting from no keys seen. -/
def drop_duplicates (rows : List OutRow) : List OutRow :=
  drop_duplicates_aux [] rows

/-- The dataset just before line 110: every cleaning and enrichment stage
applied, deduplication not yet. -/
def pre_dedup (pd : Cell → Option Date) (tn : Cell → Option ℚ)
    (rows : List Row) : List OutRow :=
  enrich (range_filter (coerce_numerics tn (parse_dates pd rows)))

/-- clean_and_transform (lines 68-128) on a schema-validated dataset: the
stages of lines 76-125 in source order.  (Line 70 copies the input and
line 73 validates the schema; on the typed Row dataset the schema is
carried by the type.  Lines 113-125 only select and reorder columns, which
the OutRow record already fixes.) -/
def clean_and_transform (pd : Cell → Option Date) (tn : Cell → Option ℚ)
    (rows : List Row) : List OutRow :=
  drop_duplicates (pre_dedup pd tn rows)

/-- The whole per-row cleaning of lines 76-107 as one partial function:
some = the row survives (with its output record), none = dropped. -/
def clean_row (pd : Cell → Option Date) (tn : Cell → Option ℚ) (r : Row) :
    Option OutRow :=
  (pd r.order_date).bind fun d =>
  (tn r.quantity).bind fun q =>
  (tn r.unit_price).bind fun up =>
  (tn r.discount).bind fun di =>
  (tn r.profit).bind fun pr =>
  if 0 < q ∧ 0 ≤ up then some (enrich_row (NumRow.mk r d q up di pr))
  else none

/-- Demo date parser used to instantiate the universally quantified
theorems on concrete data: recognises two ISO-formatted strings. -/
def demo_pd : Cell → Option Date
  | Cell.strv "2024-04-15" => some ⟨2024, 4, 15⟩
  | Cell.strv "2024-01-02" => some ⟨2024, 1, 2⟩
  | _ => none

/-- Demo numeric coercion: numbers convert to themselves, everything else
coerces to NaN. -/
def demo_tn : Cell → Option ℚ
  | Cell.numv q => some q
  | _ => none

/-- A concrete schema-valid row (order and product ids and quantity vary,
the rest fixed), used to instantiate theorems. -/
def demo_row (oid pid : String) (q : ℚ) : Row :=
  { order_id := Cell.strv oid
    order_date := Cell.strv "2024-04-15"
    region := Cell.strv "west"
    country := Cell.strv "usa"
    customer_id := Cell.strv "CU1"
    product_id := Cell.strv pid
    category := Cell.strv "tech"
    sub_category := Cell.strv "phones"
    quantity := Cell.numv q
    unit_price := Cell.numv 2
    discount := Cell.numv 0
    profit := Cell.numv 1
    source_file := "a.csv" }

/-- The output row that demo_row produces under demo_pd and demo_tn. -/
def demo_out (oid pid : String) (q : ℚ) : OutRow :=
  enrich_row (NumRow.mk (demo_row oid pid q) ⟨2024, 4, 15⟩ q 2 0 1)

/-- The bad-row scenario input: one row with quantity -5 and nine valid
rows (distinct keys). -/
def demo_bad_batch : List Row :=
  [demo_row "O0" "P0" (-5),
   demo_row "O1" "P1" 1, demo_row "O2" "P2" 2, demo_row "O3" "P3" 3,
   demo_row "O4" "P4" 4, demo_row "O5" "P5" 5, demo_row "O6" "P6" 6,
   demo_row "O7" "P7" 7, demo_row "O8" "P8" 8, demo_row "O9" "P9" 9]

/-- The missing-column scenario input: order_date renamed to orderdate,
every other required column present (plus the loader's source_file tag). -/
def demo_renamed_df : PyDataFrame :=
  { columns := ["order_id", "orderdate", "region", "country",
                "customer_id", "product_id", "category", "sub_category",
                "quantity", "unit_price", "discount", "profit",
                "source_file"]
    rows := [] }

/-- A row whose identifier key columns are both missing (null), otherwise
identical to demo_row. -/
def demo_null_row (q : ℚ) : Row :=
  { demo_row "ignored" "ignored" q with
    order_id := Cell.null, product_id := Cell.null }

/-- The output row demo_null_row produces. -/
def demo_null_out (q : ℚ) : OutRow :=
  enrich_row (NumRow.mk (demo_null_row q) ⟨2024, 4, 15⟩ q 2 0 1)

/-- A row with a non-numeric discount value, otherwise identical to
demo_row. -/
def demo_bad_discount_row : Row :=
  { demo_row "O1" "P1" 1 with discount := Cell.strv "ten percent" }

/-! ### Properties of the deduplication of line 110 -/

theorem drop_duplicates_aux_sublist (l : List OutRow) :
    ∀ seen, List.Sublist (drop_duplicates_aux seen l) l := by
  induction l with
  | nil => intro seen; exact List.Sublist.refl _
  | cons r rs ih =>
    intro seen
    simp only [drop_duplicates_aux]
    by_cases h : dedup_key r ∈ seen
    · rw [if_pos h]
      exact (ih seen).trans (List.sublist_cons_self r rs)
    · rw [if_neg h]
      exact (ih (dedup_key r :: seen)).cons₂ r

theorem drop_duplicates_aux_key_not_mem (l : List OutRow) :
    ∀ seen k, k ∈ seen → k ∉ (drop_duplicates_aux seen l).map dedup_key := by
  induction l with
  | nil => intro seen k _; simp [drop_duplicates_aux]
  | cons r rs ih =>
    intro seen k hk
    simp only [drop_duplicates_aux]
    by_cases h : dedup_key r ∈ seen
    · rw [if_pos h]; exact ih seen k hk
    · rw [if_neg h]
      simp only [List.map_cons, List.mem_cons, not_or]
      refine ⟨fun he => h (he ▸ hk), ?_⟩
      exact ih _ k (List.mem_cons_of_mem _ hk)

theorem drop_duplicates_aux_nodup (l : List OutRow) :
    ∀ seen, ((drop_duplicates_aux seen l).map dedup_key).Nodup := by
  induction l with
  | nil => intro seen; simp [drop_duplicates_aux]
  | cons r rs ih =>
    intro seen
    simp only [drop_duplicates_aux]
    by_cases h : dedup_key r ∈ seen
    · rw [if_pos h]; exact ih seen
    · rw [if_neg h]
      simp only [List.map_cons, List.nodup_cons]
      exact ⟨drop_duplicates_aux_key_not_mem rs _ _ (List.mem_cons_self _ _), ih _⟩

theorem drop_duplicates_aux_first_occ (l : List OutRow) :
    ∀ seen o, o ∈ drop_duplicates_aux seen l →
      dedup_key o ∉ seen ∧
      l.find? (fun s => decide (dedup_key s = dedup_key o)) = some o := by
  induction l with
  | nil => intro seen o ho; simp [drop_duplicates_aux] at ho
  | cons r rs ih =>
    intro seen o ho
    simp only [drop_duplicates_aux] at ho
    by_cases h : dedup_key r ∈ seen
    · rw [if_pos h] at ho
      obtain ⟨hno, hfind⟩ := ih seen o ho
      have hne : dedup_key r ≠ dedup_key o := fun he => hno (he ▸ h)
      refine ⟨hno, ?_⟩
      rw [List.find?_cons, decide_eq_false hne]
      exact hfind
    · rw [if_neg h] at ho
      rcases List.mem_cons.mp ho with rfl | ho'
      · refine ⟨h, ?_⟩
        rw [List.find?_cons, decide_eq_true rfl]
      · obtain ⟨hno, hfind⟩ := ih _ o ho'
        have hne : dedup_key r ≠ dedup_key o := fun he =>
          hno (by rw [← he]; exact List.mem_cons_self _ _)
        refine ⟨fun hs => hno (List.mem_cons_of_mem _ hs), ?_⟩
        rw [List.find?_cons, decide_eq_false hne]
        exact hfind

theorem drop_duplicates_aux_complete (l : List OutRow) :
    ∀ seen s, s ∈ l →
      dedup_key s ∈ seen ∨
      ∃ o ∈ drop_duplicates_aux seen l, dedup_key o = dedup_key s := by
  induction l with
  | nil => intro seen s hs; cases hs
  | cons r rs ih =>
    intro seen s hs
    simp only [drop_duplicates_aux]
    by_cases h : dedup_key r ∈ seen
    · rw [if_pos h]
      rcases List.mem_cons.mp hs with rfl | hs'
      · exact Or.inl h
      · exact ih seen s hs'
    · rw [if_neg h]
      rcases List.mem_cons.mp hs with rfl | hs'
      · exact Or.inr ⟨s, List.mem_cons_self _ _, rfl⟩
      · rcases ih (dedup_key r :: seen) s hs' with hmem | ⟨o, ho, hk⟩
        · rcases List.mem_cons.mp hmem with he | hseen
          · exact Or.inr ⟨r, List.mem_cons_self _ _, he.symm⟩
          · exact Or.inl hseen
        · exact Or.inr ⟨o, List.mem_cons_of_mem _ ho, hk⟩

/-! ### The staged pipeline equals the per-row cleaning function -/

theorem pre_dedup_eq_filterMap (pd : Cell → Option Date) (tn : Cell → Option ℚ)
    (rows : List Row) :
    pre_dedup pd tn rows = rows.filterMap (clean_row pd tn) := by
  induction rows with
  | nil => rfl
  | cons r rs ih =>
    simp only [pre_dedup, parse_dates, List.filterMap_cons] at ih ⊢
    cases hd : pd r.order_date with
    | none =>
      simp only [clean_row, hd, Option.map_none', Option.none_bind]
      exact ih
    | some d =>
      simp only [clean_row, hd, Option.map_some', Option.some_bind,
        coerce_numerics, List.filterMap_cons, coerce_cells]
      cases hq : tn r.quantity with
      | none => simp only [hq, Option.none_bind]; exact ih
      | some q =>
        cases hup : tn r.unit_price with
        | none => simp only [hq, hup, Option.some_bind, Option.none_bind]; exact ih
        | some up =>
          cases hdi : tn r.discount with
          | none =>
            simp only [hq, hup, hdi, Option.some_bind, Option.none_bind]
            exact ih
          | some di =>
            cases hpr : tn r.profit with
            | none =>
              simp only [hq, hup, hdi, hpr, Option.some_bind, Option.none_bind]
              exact ih
            | some pr =>
              simp only [hq, hup, hdi, hpr, Option.some_bind,
                range_filter, List.filter_cons]
              by_cases hr : 0 < q ∧ 0 ≤ up
              · have hb : (decide (0 < q) && decide (0 ≤ up)) = true := by
                  simp [hr.1, hr.2]
                simp only [hb, if_pos hr, if_true, enrich, List.map_cons]
                exact congrArg _ ih
              · have hb : (decide (0 < q) && decide (0 ≤ up)) = false := by
                  rcases not_and_or.mp hr with h1 | h1 <;> simp [h1]
                simp only [hb, if_neg hr, if_false]
                exact ih

/-! ### Claim theorems -/

/-- Claim C1: for every input dataset, the (order_id, product_id) pair is
unique across the pipeline's final output; deduplication removes every row
whose key already occurred earlier, keeps the first occurrence in input
order, and no stage reorders the surviving rows.  Stated as: the cleaning
stages amount to one order-preserving pass over the input rows; the output
is a sublist (same relative order) of the pre-deduplication dataset; its
keys are pairwise distinct; every output row is the first pre-deduplication
row carrying its key; and every pre-deduplication key is represented in the
output. -/
theorem etl_c1 (pd : Cell → Option Date) (tn : Cell → Option ℚ)
    (rows : List Row) :
    pre_dedup pd tn rows = rows.filterMap (clean_row pd tn) ∧
    ((clean_and_transform pd tn rows).map dedup_key).Nodup ∧
    List.Sublist (clean_and_transform pd tn rows) (pre_dedup pd tn rows) ∧
    (∀ o ∈ clean_and_transform pd tn rows,
      (pre_dedup pd tn rows).find?
        (fun s => decide (dedup_key s = dedup_key o)) = some o) ∧
    (∀ s ∈ pre_dedup pd tn rows,
      ∃ o ∈ clean_and_transform pd tn rows, dedup_key o = dedup_key s) := by
  refine ⟨pre_dedup_eq_filterMap pd tn rows,
    drop_duplicates_aux_nodup _ [],
    drop_duplicates_aux_sublist _ [], ?_, ?_⟩
  · intro o ho
    exact (drop_duplicates_aux_first_occ _ [] o ho).2
  · intro s hs
    rcases drop_duplicates_aux_complete _ [] s hs with h | h
    · cases h
    · exact h

/-! ### Per-row helper lemmas -/

theorem mem_clean_and_transform {pd : Cell → Option Date}
    {tn : Cell → Option ℚ} {rows : List Row} {o : OutRow}
    (ho : o ∈ clean_and_transform pd tn rows) :
    ∃ r ∈ rows, clean_row pd tn r = some o := by
  have h1 : o ∈ pre_dedup pd tn rows :=
    List.Sublist.mem ho (drop_duplicates_aux_sublist _ [])
  rw [pre_dedup_eq_filterMap] at h1
  exact List.mem_filterMap.mp h1

theorem clean_row_out_spec {pd : Cell → Option Date} {tn : Cell → Option ℚ}
    {r : Row} {o : OutRow} (h : clean_row pd tn r = some o) :
    0 < o.quantity ∧ 0 ≤ o.unit_price ∧
    o.gross_sales = o.quantity * o.unit_price ∧
    o.discount_amount = o.gross_sales * o.discount ∧
    o.net_sales = o.gross_sales - o.discount_amount ∧
    o.margin_pct =
      (if o.net_sales = 0 then none else some (o.profit / o.net_sales)) ∧
    o.order_year = o.order_date.year ∧
    o.order_month = o.order_date.month ∧
    o.order_month_name = month_abbrev o.order_date.month ∧
    o.order_quarter = "Q" ++ toString ((o.order_date.month - 1) / 3 + 1) := by
  simp only [clean_row, Option.bind_eq_some] at h
  obtain ⟨d, hd, q, hq, up, hup, di, hdi, pr, hpr, hif⟩ := h
  by_cases hr : 0 < q ∧ 0 ≤ up
  · rw [if_pos hr] at hif
    obtain rfl := Option.some.inj hif
    exact ⟨hr.1, hr.2, rfl, rfl, rfl, rfl, rfl, rfl, rfl, rfl⟩
  · rw [if_neg hr] at hif
    cases hif

theorem clean_row_ids {pd : Cell → Option Date} {tn : Cell → Option ℚ}
    {r : Row} {o : OutRow} (h : clean_row pd tn r = some o) :
    o.order_id = r.order_id ∧ o.product_id = r.product_id := by
  simp only [clean_row, Option.bind_eq_some] at h
  obtain ⟨d, hd, q, hq, up, hup, di, hdi, pr, hpr, hif⟩ := h
  by_cases hr : 0 < q ∧ 0 ≤ up
  · rw [if_pos hr] at hif
    obtain rfl := Option.some.inj hif
    exact ⟨rfl, rfl⟩
  · rw [if_neg hr] at hif
    cases hif

theorem bind_map_comm {α β γ : Type} (x : Option α) (f₁ : α → Option γ)
    (f₂ : α → Option β) (g : β → γ) (h : ∀ a, f₁ a = (f₂ a).map g) :
    x.bind f₁ = (x.bind f₂).map g := by
  cases x with
  | none => rfl
  | some a => simpa using h a

theorem drop_duplicates_aux_nil_of_seen (l : List OutRow) :
    ∀ seen, (∀ o ∈ l, dedup_key o ∈ seen) → drop_duplicates_aux seen l = [] := by
  induction l with
  | nil => intro seen _; rfl
  | cons r rs ih =>
    intro seen h
    simp only [drop_duplicates_aux]
    rw [if_pos (h r (List.mem_cons_self _ _))]
    exact ih seen fun o ho => h o (List.mem_cons_of_mem _ ho)

theorem filterMap_eq_of_none_outside {α β : Type} {f : α → Option β}
    {p : α → Bool} (h : ∀ a, p a = false → f a = none) (l : List α) :
    l.filterMap f = (l.filter p).filterMap f := by
  induction l with
  | nil => rfl
  | cons a as ih =>
    rw [List.filterMap_cons, List.filter_cons]
    cases hp : p a with
    | false =>
      rw [h a hp]
      simpa using ih
    | true =>
      simp only [if_true]
      rw [List.filterMap_cons]
      cases hf : f a with
      | none => exact ih
      | some b => rw [ih]

theorem clean_row_none_of_bad_numeric {pd : Cell → Option Date}
    {tn : Cell → Option ℚ} {r : Row}
    (h : tn r.quantity = none ∨ tn r.unit_price = none ∨
      tn r.discount = none ∨ tn r.profit = none) :
    clean_row pd tn r = none := by
  rcases h with h | h | h | h <;> simp [clean_row, h]

theorem demo_single_eq :
    clean_and_transform demo_pd demo_tn [demo_row "O1" "P1" 1]
      = [demo_out "O1" "P1" 1] := rfl

theorem demo_single_mem :
    demo_out "O1" "P1" 1 ∈
      clean_and_transform demo_pd demo_tn [demo_row "O1" "P1" 1] := by
  rw [demo_single_eq]
  exact List.mem_singleton.mpr rfl

/-- Witness for C1 at a concrete two-row input sharing one key: the kept
row is the first occurrence, and the dropped row's key is still
represented. -/
theorem etl_c1_witness :
    (pre_dedup demo_pd demo_tn
        [demo_row "O1" "P1" 1, demo_row "O1" "P1" 3]).find?
        (fun s => decide (dedup_key s = dedup_key (demo_out "O1" "P1" 1)))
      = some (demo_out "O1" "P1" 1) ∧
    ∃ o ∈ clean_and_transform demo_pd demo_tn
        [demo_row "O1" "P1" 1, demo_row "O1" "P1" 3],
      dedup_key o = dedup_key (demo_out "O1" "P1" 3) := by
  have hmem : demo_out "O1" "P1" 1 ∈ clean_and_transform demo_pd demo_tn
      [demo_row "O1" "P1" 1, demo_row "O1" "P1" 3] := by
    rw [show clean_and_transform demo_pd demo_tn
        [demo_row "O1" "P1" 1, demo_row "O1" "P1" 3]
        = [demo_out "O1" "P1" 1] from rfl]
    exact List.mem_singleton.mpr rfl
  have hpre : demo_out "O1" "P1" 3 ∈ pre_dedup demo_pd demo_tn
      [demo_row "O1" "P1" 1, demo_row "O1" "P1" 3] := by
    rw [show pre_dedup demo_pd demo_tn
        [demo_row "O1" "P1" 1, demo_row "O1" "P1" 3]
        = [demo_out "O1" "P1" 1, demo_out "O1" "P1" 3] from rfl]
    exact List.mem_cons_of_mem _ (List.mem_singleton.mpr rfl)
  exact ⟨(etl_c1 demo_pd demo_tn _).2.2.2.1 _ hmem,
    (etl_c1 demo_pd demo_tn _).2.2.2.2 _ hpre⟩

/-- Claim C2: whenever at least one required column is absent after
lowercasing and trimming the column names, standardize_columns fails with
an error that lists exactly the required columns absent from the
normalized column list (all of them, in required-column order) and echoes
the normalized columns present; in particular the orderdate scenario fails
naming exactly order_date. -/
theorem etl_c2 :
    (∀ df : PyDataFrame,
      (∃ c ∈ required_cols, c ∉ df.columns.map normalize_col) →
      (standardize_columns df).1 =
        Except.error
          ⟨required_cols.filter
              (fun c => decide (c ∉ df.columns.map normalize_col)),
            df.columns.map normalize_col⟩) ∧
    (standardize_columns demo_renamed_df).1 =
      Except.error ⟨["order_date"], demo_renamed_df.columns⟩ := by
  constructor
  · rintro df ⟨c, hc, hnc⟩
    have hmem : c ∈ required_cols.filter
        (fun c => decide (c ∉ df.columns.map normalize_col)) :=
      List.mem_filter.mpr ⟨hc, by simpa using hnc⟩
    have hne := List.ne_nil_of_mem hmem
    simp only [standardize_columns]
    rw [if_neg (fun hemp => hne (List.isEmpty_iff.mp hemp))]
  · rfl

/-- Witness for C2 at the orderdate scenario input. -/
theorem etl_c2_witness :
    (standardize_columns demo_renamed_df).1 =
      Except.error
        ⟨required_cols.filter
            (fun c => decide (c ∉ demo_renamed_df.columns.map normalize_col)),
          demo_renamed_df.columns.map normalize_col⟩ := by
  refine etl_c2.1 demo_renamed_df ⟨"order_date", ?_, ?_⟩
  · simp [required_cols]
  · rw [show demo_renamed_df.columns.map normalize_col
        = demo_renamed_df.columns from rfl]
    simp [demo_renamed_df]

/-- Claim C3: every output row satisfies quantity > 0 and
unit_price >= 0; and the bad-row scenario (one row with quantity -5, nine
valid rows) yields exactly nine output rows. -/
theorem etl_c3 (pd : Cell → Option Date) (tn : Cell → Option ℚ)
    (rows : List Row) :
    (∀ o ∈ clean_and_transform pd tn rows,
      0 < o.quantity ∧ 0 ≤ o.unit_price) ∧
    (clean_and_transform demo_pd demo_tn demo_bad_batch).length = 9 := by
  constructor
  · intro o ho
    obtain ⟨r, _, hr⟩ := mem_clean_and_transform ho
    obtain ⟨h1, h2, _⟩ := clean_row_out_spec hr
    exact ⟨h1, h2⟩
  · rfl

/-- Witness for C3 at a concrete single-row input. -/
theorem etl_c3_witness :
    0 < (demo_out "O1" "P1" 1).quantity ∧
      0 ≤ (demo_out "O1" "P1" 1).unit_price :=
  (etl_c3 demo_pd demo_tn [demo_row "O1" "P1" 1]).1 _ demo_single_mem

/-- Claim C4: for every output row, margin_pct is null exactly when
net_sales = 0, and otherwise equals profit / net_sales (division is never
attempted on a zero denominator: the zero case yields null directly). -/
theorem etl_c4 (pd : Cell → Option Date) (tn : Cell → Option ℚ)
    (rows : List Row) :
    ∀ o ∈ clean_and_transform pd tn rows,
      (o.margin_pct = none ↔ o.net_sales = 0) ∧
      (o.net_sales ≠ 0 → o.margin_pct = some (o.profit / o.net_sales)) := by
  intro o ho
  obtain ⟨r, _, hr⟩ := mem_clean_and_transform ho
  obtain ⟨_, _, _, _, _, hm, _⟩ := clean_row_out_spec hr
  by_cases hz : o.net_sales = 0
  · rw [if_pos hz] at hm
    exact ⟨⟨fun _ => hz, fun _ => hm⟩, fun hne => absurd hz hne⟩
  · rw [if_neg hz] at hm
    refine ⟨⟨fun h => ?_, fun h => absurd h hz⟩, fun _ => hm⟩
    rw [hm] at h
    cases h

/-- Witness for C4 at a concrete single-row input (net_sales = 2). -/
theorem etl_c4_witness :
    ((demo_out "O1" "P1" 1).margin_pct = none ↔
      (demo_out "O1" "P1" 1).net_sales = 0) ∧
    ((demo_out "O1" "P1" 1).net_sales ≠ 0 →
      (demo_out "O1" "P1" 1).margin_pct =
        some ((demo_out "O1" "P1" 1).profit /
          (demo_out "O1" "P1" 1).net_sales)) :=
  etl_c4 demo_pd demo_tn [demo_row "O1" "P1" 1] _ demo_single_mem

/-- Claim C5: for every output row, gross_sales = quantity * unit_price,
discount_amount = gross_sales * discount, and
net_sales = gross_sales - discount_amount. -/
theorem etl_c5 (pd : Cell → Option Date) (tn : Cell → Option ℚ)
    (rows : List Row) :
    ∀ o ∈ clean_and_transform pd tn rows,
      o.gross_sales = o.quantity * o.unit_price ∧
      o.discount_amount = o.gross_sales * o.discount ∧
      o.net_sales = o.gross_sales - o.discount_amount := by
  intro o ho
  obtain ⟨r, _, hr⟩ := mem_clean_and_transform ho
  obtain ⟨_, _, h3, h4, h5, _⟩ := clean_row_out_spec hr
  exact ⟨h3, h4, h5⟩

/-- Witness for C5 at a concrete single-row input. -/
theorem etl_c5_witness :
    (demo_out "O1" "P1" 1).gross_sales =
      (demo_out "O1" "P1" 1).quantity * (demo_out "O1" "P1" 1).unit_price ∧
    (demo_out "O1" "P1" 1).discount_amount =
      (demo_out "O1" "P1" 1).gross_sales * (demo_out "O1" "P1" 1).discount ∧
    (demo_out "O1" "P1" 1).net_sales =
      (demo_out "O1" "P1" 1).gross_sales -
        (demo_out "O1" "P1" 1).discount_amount :=
  etl_c5 demo_pd demo_tn [demo_row "O1" "P1" 1] _ demo_single_mem

/-- Claim C6: calendar fields are derived purely from order_date
(order_year = year, order_month = month, order_month_name = the 3-letter
English abbreviation, order_quarter = Q((month-1)/3+1)); and the April 15
scenario yields Q2, month 4, Apr. -/
theorem etl_c6 (pd : Cell → Option Date) (tn : Cell → Option ℚ)
    (rows : List Row) :
    (∀ o ∈ clean_and_transform pd tn rows,
      o.order_year = o.order_date.year ∧
      o.order_month = o.order_date.month ∧
      o.order_month_name = month_abbrev o.order_date.month ∧
      o.order_quarter = "Q" ++ toString ((o.order_date.month - 1) / 3 + 1)) ∧
    month_abbrev 4 = "Apr" ∧
    ((clean_and_transform demo_pd demo_tn [demo_row "O1" "P1" 1]).map
      (fun o => (o.order_quarter, o.order_month, o.order_month_name))
      = [("Q2", 4, "Apr")]) := by
  refine ⟨?_, rfl, rfl⟩
  intro o ho
  obtain ⟨r, _, hr⟩ := mem_clean_and_transform ho
  obtain ⟨_, _, _, _, _, _, h7, h8, h9, h10⟩ := clean_row_out_spec hr
  exact ⟨h7, h8, h9, h10⟩

/-- Witness for C6 at a concrete single-row (April 15) input. -/
theorem etl_c6_witness :
    (demo_out "O1" "P1" 1).order_year =
      (demo_out "O1" "P1" 1).order_date.year ∧
    (demo_out "O1" "P1" 1).order_month =
      (demo_out "O1" "P1" 1).order_date.month ∧
    (demo_out "O1" "P1" 1).order_month_name =
      month_abbrev (demo_out "O1" "P1" 1).order_date.month ∧
    (demo_out "O1" "P1" 1).order_quarter =
      "Q" ++ toString (((demo_out "O1" "P1" 1).order_date.month - 1) / 3 + 1) :=
  (etl_c6 demo_pd demo_tn [demo_row "O1" "P1" 1]).1 _ demo_single_mem

/-- Claim C7: a row whose quantity, unit_price, discount, or profit fails
numeric conversion is dropped: removing all such rows from the input does
not change the output, and the per-row cleaning returns none on any such
row (including when only discount or profit is non-numeric). -/
theorem etl_c7 (pd : Cell → Option Date) (tn : Cell → Option ℚ)
    (rows : List Row) :
    clean_and_transform pd tn rows =
      clean_and_transform pd tn (rows.filter (fun r =>
        (tn r.quantity).isSome && (tn r.unit_price).isSome &&
        (tn r.discount).isSome && (tn r.profit).isSome)) ∧
    (∀ r : Row,
      tn r.quantity = none ∨ tn r.unit_price = none ∨
        tn r.discount = none ∨ tn r.profit = none →
      clean_row pd tn r = none) := by
  constructor
  · unfold clean_and_transform
    rw [pre_dedup_eq_filterMap, pre_dedup_eq_filterMap]
    refine congrArg drop_duplicates (filterMap_eq_of_none_outside ?_ rows)
    intro r hp
    apply clean_row_none_of_bad_numeric
    by_cases h1 : tn r.quantity = none
    · exact Or.inl h1
    by_cases h2 : tn r.unit_price = none
    · exact Or.inr (Or.inl h2)
    by_cases h3 : tn r.discount = none
    · exact Or.inr (Or.inr (Or.inl h3))
    by_cases h4 : tn r.profit = none
    · exact Or.inr (Or.inr (Or.inr h4))
    exfalso
    have hi1 := Option.ne_none_iff_isSome.mp h1
    have hi2 := Option.ne_none_iff_isSome.mp h2
    have hi3 := Option.ne_none_iff_isSome.mp h3
    have hi4 := Option.ne_none_iff_isSome.mp h4
    simp [hi1, hi2, hi3, hi4] at hp
  · intro r h
    exact clean_row_none_of_bad_numeric h

/-- Witness for C7: a row whose only defect is a non-numeric discount is
dropped. -/
theorem etl_c7_witness :
    clean_row demo_pd demo_tn demo_bad_discount_row = none :=
  (etl_c7 demo_pd demo_tn []).2 demo_bad_discount_row
    (Or.inr (Or.inr (Or.inl rfl)))

/-- Counterexample to C8 as stated: standardize_columns does mutate the
caller's DataFrame (line 52 assigns df.columns in place), so after the
call on a DataFrame with column Order_ID followed by a space, the caller's
DataFrame is no longer equal to its original value. -/
theorem etl_c8_counterexample :
    (standardize_columns (PyDataFrame.mk ["Order_ID "] [])).2 ≠
      PyDataFrame.mk ["Order_ID "] [] := by
  intro h
  have hcols := congrArg PyDataFrame.columns h
  rw [show (standardize_columns (PyDataFrame.mk ["Order_ID "] [])).2.columns
      = ["order_id"] from rfl] at hcols
  simp at hcols

/-- Claim C8 amended: the call's only effect on the caller's DataFrame is
the in-place column renaming of line 52 — afterwards the caller's columns
are exactly the lowercased/trimmed originals and its rows are unchanged. -/
theorem etl_c8_amended (df : PyDataFrame) :
    (standardize_columns df).2.columns = df.columns.map normalize_col ∧
    (standardize_columns df).2.rows = df.rows := by
  simp only [standardize_columns]
  split
  · exact ⟨rfl, rfl⟩
  · exact ⟨rfl, rfl⟩

/-- Claim C9: identifier columns are never validated, and deduplication
treats null key values as equal: changing order_id and product_id never
affects whether a row survives cleaning (they pass through untouched), and
when every input row has null order_id and product_id the final output is
just the first surviving row. -/
theorem etl_c9 (pd : Cell → Option Date) (tn : Cell → Option ℚ) :
    (∀ rows : List Row,
      (∀ r ∈ rows, r.order_id = Cell.null ∧ r.product_id = Cell.null) →
      clean_and_transform pd tn rows = (pre_dedup pd tn rows).take 1) ∧
    (∀ (r : Row) (c c' : Cell),
      clean_row pd tn { r with order_id := c, product_id := c' } =
        (clean_row pd tn r).map
          (fun o => { o with order_id := c, product_id := c' })) := by
  constructor
  · intro rows hids
    have hkey : ∀ o ∈ pre_dedup pd tn rows,
        dedup_key o = (Cell.null, Cell.null) := by
      intro o ho
      rw [pre_dedup_eq_filterMap] at ho
      obtain ⟨r, hrm, hr⟩ := List.mem_filterMap.mp ho
      obtain ⟨h1, h2⟩ := clean_row_ids hr
      obtain ⟨hr1, hr2⟩ := hids r hrm
      simp [dedup_key, h1, h2, hr1, hr2]
    show drop_duplicates (pre_dedup pd tn rows) = _
    cases hpre : pre_dedup pd tn rows with
    | nil => rfl
    | cons a l =>
      rw [hpre] at hkey
      have ha : dedup_key a = (Cell.null, Cell.null) :=
        hkey a (List.mem_cons_self _ _)
      simp only [drop_duplicates, drop_duplicates_aux, List.take_succ_cons,
        List.take_zero]
      rw [if_neg (List.not_mem_nil _)]
      rw [drop_duplicates_aux_nil_of_seen l [dedup_key a] fun o ho =>
        List.mem_singleton.mpr
          ((hkey o (List.mem_cons_of_mem _ ho)).trans ha.symm)]
  · intro r c c'
    dsimp only [clean_row]
    refine bind_map_comm _ _ _ _ fun d => ?_
    refine bind_map_comm _ _ _ _ fun q => ?_
    refine bind_map_comm _ _ _ _ fun up => ?_
    refine bind_map_comm _ _ _ _ fun di => ?_
    refine bind_map_comm _ _ _ _ fun pr => ?_
    by_cases h : 0 < q ∧ 0 ≤ up
    · rw [if_pos h, if_pos h]
      rfl
    · rw [if_neg h, if_neg h]
      rfl

/-- Witness for C9: two otherwise-valid, distinct rows that both lack
order_id and product_id; only the first appears in the output. -/
theorem etl_c9_witness :
    clean_and_transform demo_pd demo_tn [demo_null_row 1, demo_null_row 3] =
      (pre_dedup demo_pd demo_tn [demo_null_row 1, demo_null_row 3]).take 1 ∧
    clean_and_transform demo_pd demo_tn [demo_null_row 1, demo_null_row 3] =
      [demo_null_out 1] := by
  refine ⟨(etl_c9 demo_pd demo_tn).1 _ ?_, rfl⟩
  intro r hr
  rcases List.mem_cons.mp hr with rfl | hr
  · exact ⟨rfl, rfl⟩
  · rcases List.mem_singleton.mp hr with rfl
    exact ⟨rfl, rfl⟩

/-- Claim C10: a null value in region, country, category, or sub_category
never causes the row to be dropped: the cleaning result is exactly the
result on the same row, with that column holding the literal string Nan
(astype(str) stringifies the null as nan and str.title() produces Nan);
concretely, a pipeline run on a row with null region outputs the row with
region Nan. -/
theorem etl_c10 (pd : Cell → Option Date) (tn : Cell → Option ℚ) (r : Row) :
    clean_row pd tn { r with region := Cell.null } =
      (clean_row pd tn r).map (fun o => { o with region := "Nan" }) ∧
    clean_row pd tn { r with country := Cell.null } =
      (clean_row pd tn r).map (fun o => { o with country := "Nan" }) ∧
    clean_row pd tn { r with category := Cell.null } =
      (clean_row pd tn r).map (fun o => { o with category := "Nan" }) ∧
    clean_row pd tn { r with sub_category := Cell.null } =
      (clean_row pd tn r).map (fun o => { o with sub_category := "Nan" }) ∧
    clean_and_transform demo_pd demo_tn
        [{ demo_row "O1" "P1" 1 with region := Cell.null }] =
      [{ demo_out "O1" "P1" 1 with region := "Nan" }] := by
  refine ⟨?_, ?_, ?_, ?_, rfl⟩ <;>
  · dsimp only [clean_row]
    refine bind_map_comm _ _ _ _ fun d => ?_
    refine bind_map_comm _ _ _ _ fun q => ?_
    refine bind_map_comm _ _ _ _ fun up => ?_
    refine bind_map_comm _ _ _ _ fun di => ?_
    refine bind_map_comm _ _ _ _ fun pr => ?_
    by_cases h : 0 < q ∧ 0 ≤ up
    · rw [if_pos h, if_pos h]
      rfl
    · rw [if_neg h, if_neg h]
      rfl
